import Mathlib

/-!
Verification of the Contribution Scoring Engine (`my_proof/proof.py` and
`my_proof/__main__.py`) against its natural-language specification.

The Python source is shallowly embedded below.  Floats are modelled as
rationals (`ℚ`): every numeric literal appearing in the scoring code
(`0.5`, `0.1`, the point values `50`, the rounding modulus `1e-5`) is exactly
representable, so the rational model tracks the float code on all inputs used
in the theorems.  Fallible code (Python exceptions) is modelled with
`Option`/`Except`.  Dates parsed by `pd.to_datetime(..., format todo='%d/%m/%y')`
are modelled as integers (days); `pd.date_range(start, end, freq='15D')`
generates exactly the points `start + 15*i ≤ end`, which is reproduced
arithmetically.
-/

namespace MyProof

/-- `points` table of `proof.py` lines 44-60: task subtype → maximum points. -/
def points : List (String × ℚ) :=
  [("YOUTUBE_SUBSCRIBERS", 50),
   ("YOUTUBE_CHANNEL_DATA", 50),
   ("YOUTUBE_CREATOR_PLAYLIST", 50),
   ("YOUTUBE_STUDIO", 50),
   ("AMAZON_PRIME_VIDEO", 50),
   ("AMAZON_ORDER_HISTORY", 50),
   ("SPOTIFY_PLAYLIST", 50),
   ("SPOTIFY_HISTORY", 50),
   ("NETFLIX_HISTORY", 50),
   ("NETFLIX_FAVORITE", 50),
   ("TWITTER_USERINFO", 50),
   ("FARCASTER_USERINFO", 50),
   ("COINMARKETCAP_USER_WATCHLIST", 50),
   ("LINKEDIN_USER_INFO", 50),
   ("TRIP_USER_DETAILS", 50)]

/-- `points[task_subtype]` (Python dict indexing).  In the source a missing key
raises `KeyError`; every call site below passes a key present in the table
(the dispatch in `calculate_quality_score` guards it), so the lookup is
modelled totally with default `0`. -/
def pointsGet (k : String) : ℚ :=
  ((points.find? (fun p => p.1 = k)).map Prod.snd).getD 0

/-- `calculate_max_points` (proof.py lines 197-198): sum of all point values. -/
def calculate_max_points : ℚ := (points.map Prod.snd).sum

/-- Payload of `securedSharedData`.  The code reads `['csv']` (a list of dated
events, modelled by their parsed dates in days), `.get('coins', {})`,
`.get('pairs', {})` and `.get('orders', {})` (only the lengths are used). -/
structure SecuredSharedData where
  csv : List Int
  coins : Nat
  pairs : Nat
  orders : Nat
deriving DecidableEq, Repr

/-- One entry of the `contribution` list of a record file.  The engine reads
only `taskSubType`, `securedSharedData` and `witnesses` (`proof.py` lines
200-209, 380-412); `witnesses` is a string per the record format. -/
structure Contribution where
  taskSubType : String
  witnesses : String
  securedSharedData : SecuredSharedData
deriving DecidableEq, Repr

/-- Top-level record file content: `walletAddress` and the contribution list. -/
structure InputData where
  walletAddress : String
  contribution : List Contribution
deriving DecidableEq, Repr

/-! ### Quality scoring (proof.py lines 253-329, 372-424) -/

/-- `get_watch_history_score` (proof.py lines 257-266): tier score for one
15-day window count.  Thresholds `count >= 10`, `4 <= count <= 9`,
`1 <= count <= 3`, else `0`. -/
def get_watch_history_score (count : Nat) (task_subtype : String) : ℚ :=
  let max_point := pointsGet task_subtype
  if 10 ≤ count then max_point
  else if 4 ≤ count ∧ count ≤ 9 then max_point * (1/2)
  else if 1 ≤ count ∧ count ≤ 3 then max_point * (1/10)
  else 0

/-- `get_order_history_score` (proof.py lines 302-316): tier score for a single
order count.  Thresholds `orderCount >= 10`, `5 <= orderCount <= 9`,
`1 <= orderCount <= 4`, else `0`. -/
def get_order_history_score (orderCount : Nat) (task_subtype : String) : ℚ :=
  let max_point := pointsGet task_subtype
  if 10 ≤ orderCount then max_point
  else if 5 ≤ orderCount ∧ orderCount ≤ 9 then max_point * (1/2)
  else if 1 ≤ orderCount ∧ orderCount ≤ 4 then max_point * (1/10)
  else 0

/-- `get_coins_pairs_score` (proof.py lines 318-329): tier score for the sum of
the two counts.  Thresholds `>= 10`, `4..9`, `1..3`, else `0`. -/
def get_coins_pairs_score (coins_count pairs_count : Nat) (task_subtype : String) : ℚ :=
  let max_point := pointsGet task_subtype
  let total_count := coins_count + pairs_count
  if 10 ≤ total_count then max_point
  else if 4 ≤ total_count ∧ total_count ≤ 9 then max_point * (1/2)
  else if 1 ≤ total_count ∧ total_count ≤ 3 then max_point * (1/10)
  else 0

/-- Smallest event date, `df['Date'].min()` (proof.py line 279).  Value for the
empty list is junk; `calculate_watch_score` never reaches it (see there). -/
def listMin : List Int → Int
  | [] => 0
  | x :: xs => xs.foldl min x

/-- Largest event date, `df['Date'].max()` (proof.py line 280). -/
def listMax : List Int → Int
  | [] => 0
  | x :: xs => xs.foldl max x

/-- Number of 15-day windows, `len(intervals) - 1` (proof.py lines 283-287):
`pd.date_range(start, end, freq='15D')` yields the points `start + 15*i` with
`start + 15*i ≤ end`, i.e. `(end - start) / 15 + 1` points. -/
def windowCount (dates : List Int) : Nat :=
  (listMax dates - listMin dates).toNat / 15

/-- The last point generated by `pd.date_range`, `intervals[-1]`:
`start + 15 * windowCount`. -/
def lastRangePoint (dates : List Int) : Int :=
  listMin dates + 15 * (windowCount dates : Int)

/-- `interval_counts` (proof.py lines 286-291): for each window `i`, the number
of events `d` with `intervals[i] ≤ d < intervals[i+1]`, where
`intervals[i] = start + 15*i`. -/
def intervalCounts (dates : List Int) : List Nat :=
  (List.range (windowCount dates)).map (fun i : Nat =>
    dates.countP (fun d =>
      decide (listMin dates + 15 * (i : Int) ≤ d) &&
      decide (d < listMin dates + 15 * ((i : Int) + 1))))

/-- `calculate_watch_score` (proof.py lines 271-299).  Returns the overall
score (mean of the window scores, `0` if there is no window) and the list of
window scores.  On an empty event list `pd.DataFrame([])` has no `Date`
column and the code raises (aborting the run): modelled as `none`. -/
def calculate_watch_score (watch_data : List Int) (task_subtype : String) :
    Option (ℚ × List ℚ) :=
  match watch_data with
  | [] => none
  | _ :: _ =>
    let interval_scores :=
      (intervalCounts watch_data).map (fun c => get_watch_history_score c task_subtype)
    let overall_score :=
      if interval_scores = [] then 0
      else interval_scores.sum / (interval_scores.length : ℚ)
    some (overall_score, interval_scores)

/-- Outcome of one iteration of the dispatch chain in `calculate_quality_score`
(proof.py lines 386-409): a branch matched and produced a score, a branch
matched but its computation raised (`crash`), or no branch matched. -/
inductive DispatchResult
  | score (q : ℚ)
  | crash
  | noMatch
deriving DecidableEq, Repr

/-- The `if/elif` dispatch of `calculate_quality_score` (proof.py lines
386-409) for one contribution. -/
def dispatchScore (c : Contribution) : DispatchResult :=
  if c.taskSubType = "NETFLIX_HISTORY" then
    match calculate_watch_score c.securedSharedData.csv c.taskSubType with
    | some r => .score r.1
    | none => .crash
  else if c.taskSubType = "COINMARKETCAP_USER_WATCHLIST" then
    .score (get_coins_pairs_score c.securedSharedData.coins c.securedSharedData.pairs
      c.taskSubType)
  else if c.taskSubType = "AMAZON_ORDER_HISTORY" ∨ c.taskSubType = "TRIP_USER_DETAILS" then
    .score (if c.securedSharedData.orders = 0 then 0
      else get_order_history_score c.securedSharedData.orders c.taskSubType)
  else if c.taskSubType = "FARCASTER_USERINFO" ∨ c.taskSubType = "TWITTER_USERINFO" ∨
      c.taskSubType = "LINKEDIN_USER_INFO" then
    .score (pointsGet c.taskSubType)
  else .noMatch

/-- Python dict assignment `final_scores[task_subtype] = score`. -/
def dictSet (fs : List (String × ℚ)) (k : String) (v : ℚ) : List (String × ℚ) :=
  match fs with
  | [] => [(k, v)]
  | (k2, v2) :: rest => if k2 = k then (k, v) :: rest else (k2, v2) :: dictSet rest k v

/-- Python dict read `final_scores[task_subtype]`; `none` models `KeyError`. -/
def dictGet (fs : List (String × ℚ)) (k : String) : Option ℚ :=
  match fs with
  | [] => none
  | (k2, _v2) :: rest => if k2 = k then some (_v2) else dictGet rest k

/-- The loop of `calculate_quality_score` (proof.py lines 380-412): for each
contribution, run the dispatch chain (which may set `final_scores[subtype]`),
then unconditionally execute
`total_secured_score += final_scores[task_subtype]` (line 412), which raises
`KeyError` when the key was never assigned. -/
def qualityLoop : List Contribution → List (String × ℚ) → ℚ → Option ℚ
  | [], _, total => some total
  | c :: rest, fs, total =>
    match dispatchScore c with
    | .crash => none
    | .score q =>
      let fs2 := dictSet fs c.taskSubType q
      match dictGet fs2 c.taskSubType with
      | some v => qualityLoop rest fs2 (total + v)
      | none => none
    | .noMatch =>
      match dictGet fs c.taskSubType with
      | some v => qualityLoop rest fs (total + v)
      | none => none

/-- `calculate_quality_score` (proof.py lines 372-424): run the loop, then
normalize by `calculate_max_points(points)` (guarding `total_max_score > 0`).
`none` models an uncaught exception (which aborts the whole run). -/
def calculate_quality_score (input_data : InputData) : Option ℚ :=
  (qualityLoop input_data.contribution [] 0).map (fun total_secured_score =>
    if 0 < calculate_max_points then total_secured_score / calculate_max_points else 0)

/-! ### Authenticity (proof.py lines 200-209) -/

/-- `valid_domains` (proof.py line 202). -/
def valid_domains : List String :=
  ["wss://witness.reclaimprotocol.org/ws", "reclaimprotocol.org"]

/-- Python `contribution.get('witnesses', '').endswith(tuple(valid_domains))`:
the witnesses string ends with one of the two suffixes (exact, case
sensitive). -/
def isTrusted (w : String) : Bool :=
  valid_domains.any (fun dmn => dmn.data.isSuffixOf w.data)

/-- Python `round` on a value already scaled to an integer target: round half
to even (banker's rounding). -/
def roundHalfEven (y : ℚ) : ℤ :=
  if Int.fract y = 1/2 then (if 2 ∣ ⌊y⌋ then ⌊y⌋ else ⌊y⌋ + 1) else round y

/-- Python `round(x, 5)`: round to the nearest multiple of `1e-5`, ties to
even. -/
def round5 (x : ℚ) : ℚ := (roundHalfEven (x * 100000) : ℚ) / 100000

/-- `calculate_authenticity_score` (proof.py lines 200-209):
`round(valid_count / len(contributions), 5)` if the contribution list is
nonempty, else `0`. -/
def calculate_authenticity_score (contributions : List Contribution) : ℚ :=
  if contributions = [] then 0
  else
    let valid_count := contributions.countP (fun c => isTrusted c.witnesses)
    round5 ((valid_count : ℚ) / (contributions.length : ℚ))

/-! ### Ownership (proof.py lines 211-236) -/

/-- The `{'walletAddress': ..., 'subType': [...]}` payload built by
`extract_wallet_address_and_subtypes` (proof.py lines 192-195). -/
structure OwnershipData where
  walletAddress : String
  subType : List String
deriving DecidableEq, Repr

/-- Outcome of the `requests.post` call in `calculate_ownership_score`: an
HTTP response with a status code, or a transport-level failure
(`requests.exceptions.RequestException` other than `HTTPError`). -/
inductive HttpOutcome
  | response (status : Nat)
  | networkError
deriving DecidableEq, Repr

/-- `calculate_ownership_score` (proof.py lines 211-236), parameterized by the
outcome of the network call.  `Except.error` models a raised exception.

Exception-handler semantics of the source: `response.raise_for_status()`
raises `requests.exceptions.HTTPError` for every status in `400..599`.
`HTTPError` is a subclass of `requests.exceptions.RequestException`, and the
`except RequestException` clause (line 228) textually precedes the
`except HTTPError` clause (line 232), so Python dispatches every `HTTPError`
to the first clause, which returns `0.0`.  The `except HTTPError` clause —
the only place that distinguishes status 400 from other errors and raises
`ValueError` — is unreachable dead code. -/
def calculate_ownership_score (jwt_token : String) (data : OwnershipData)
    (outcome : HttpOutcome) : Except String ℚ :=
  if jwt_token = "" then
    Except.error "ValueError: JWT token is required and must be a string"
  else if data.walletAddress = "" ∨ data.subType.length = 0 then
    Except.error "ValueError: Invalid data format."
  else
    match outcome with
    | .networkError => Except.ok 0
    | .response status =>
      if 400 ≤ status ∧ status ≤ 599 then Except.ok 0
      else if status = 200 then Except.ok 1
      else Except.ok 0

/-! ### Verdict aggregation and the `generate` loop (proof.py lines 70-137,
239-250) -/

/-- The mutable `proof_response_object` dict built by `generate`.  `dlp_id` is
a constant from the config and is omitted.  `valid` starts `True` (line 76);
the score fields are absent (`None`) until the first record file is
processed. -/
structure ProofState where
  valid : Bool
  uniqueness : Option ℚ
  quality : Option ℚ
  ownership : Option ℚ
  authenticity : Option ℚ
  score : Option ℚ
deriving DecidableEq, Repr

/-- Initial `proof_response_object` (proof.py lines 74-77). -/
def initState : ProofState :=
  { valid := true
    uniqueness := none
    quality := none
    ownership := none
    authenticity := none
    score := none }

/-- `calculate_final_score` (proof.py lines 239-250): mean of the attributes
among `authenticity, uniqueness, quality, ownership` that are present. -/
def calculate_final_score (st : ProofState) : ℚ :=
  let valid_attributes :=
    [st.authenticity, st.uniqueness, st.quality, st.ownership].filterMap id
  if valid_attributes = [] then 0
  else valid_attributes.sum / (valid_attributes.length : ℚ)

/-- Content of one input file, as far as the engine can observe it:
a UTF-8 file that parses as a record (`utf8Json`), a UTF-8 file that is not
valid JSON (`utf8Malformed`), or a file that is not valid UTF-8 (`nonUtf8`). -/
inductive FileContent
  | utf8Json (d : InputData)
  | utf8Malformed
  | nonUtf8
deriving DecidableEq, Repr

/-- One directory entry seen by `os.listdir` in `generate`. -/
structure PFile where
  name : String
  content : FileContent
deriving DecidableEq, Repr

/-- Python `str.lower()`, character by character (all names involved are
ASCII). -/
def strLower (s : String) : String := String.mk (s.data.map Char.toLower)

/-- Extension as computed by `os.path.splitext(input_file)[1]` on the joined
path `input_dir + '/' + name`: the substring from the last dot of `name`,
provided some non-dot character of `name` precedes it. -/
def fileExt (name : String) : String :=
  let cs := name.toList
  let dotIdxs := (List.range cs.length).filter (fun i => cs.getD i ' ' = '.')
  match dotIdxs.getLast? with
  | none => ""
  | some i =>
    if (List.range i).any (fun j => cs.getD j ' ' ≠ '.') then String.mk (cs.drop i)
    else ""

/-- Fields assigned by one iteration of the record-processing branch
(proof.py lines 118-128): set `uniqueness = 1.0`, `quality`, `ownership = 1.0`
(the `calculate_ownership_score` call on lines 114-121 is commented out),
`authenticity`; set `valid = False` when `authenticity < 1.0` (never back to
`True`); finally compute `score`. -/
def applyBundle (st : ProofState) (d : InputData) (q : ℚ) : ProofState :=
  let a := calculate_authenticity_score d.contribution
  let st2 : ProofState :=
    { st with
      uniqueness := some 1
      quality := some q
      ownership := some 1
      authenticity := some a }
  let st3 := if a < 1 then { st2 with valid := false } else st2
  { st3 with score := some (calculate_final_score st3) }

/-- One iteration of the `generate` loop (proof.py lines 79-134) on one
directory entry.

The `self.download_file(...)` call on line 83 is external network I/O; it is
modelled as a no-op, corresponding to the request failing (its
`RequestException` handler logs and returns).  Were the download to succeed,
`download_file` itself would raise `AttributeError` at line 171
(`self.proof_response_object` is never defined), aborting the run before any
record is scored; the claims below are settled under the no-network reading.

Branch 1 (lines 86-104), only for the name `decrypted_file.json`:
a UTF-8 file that parses reaches `self.proof_response_object.attributes`
(line 94) and raises `AttributeError`; a UTF-8 file that does not parse
raises `json.JSONDecodeError` at line 93, which the `except
UnicodeDecodeError` clause does not catch; a non-UTF-8 file takes the
latin-1 fallback whose failures are all caught (lines 96-104).

Branch 2 (lines 108-128), for every name with (lower-cased) extension
`.json`: `json.load` (line 110) raises on malformed or non-UTF-8 content,
uncaught; on success the scores are computed — `calculate_quality_score`
itself raises (uncaught) on an unrecognized subtype or an empty watch
payload, modelled by its `none` result.  Note the source assigns
`uniqueness` (line 118) before computing `quality` (line 119), but when
`quality` raises the whole run aborts, so the returned value is unaffected
by modelling the quality computation first. -/
def processFile (st : ProofState) (f : PFile) : Except String ProofState :=
  match
    (if f.name = "decrypted_file.json" then
      match f.content with
      | .utf8Json _ => Except.error "AttributeError: proof_response_object"
      | .utf8Malformed => Except.error "json.JSONDecodeError"
      | .nonUtf8 => Except.ok ()
    else Except.ok ()) with
  | .error e => .error e
  | .ok _ =>
    if strLower (fileExt f.name) = ".json" then
      match f.content with
      | .utf8Json d =>
        match calculate_quality_score d with
        | none => .error "uncaught exception in calculate_quality_score"
        | some q => .ok (applyBundle st d q)
      | _ => .error "json.load failure"
    else .ok st

/-- The `for input_filename in os.listdir(...)` loop of `generate` (proof.py
lines 79-134), processing the directory entries in listing order; an uncaught
exception in any iteration aborts the run. -/
def generateLoop : ProofState → List PFile → Except String ProofState
  | st, [] => .ok st
  | st, f :: rest =>
    match processFile st f with
    | .error e => .error e
    | .ok st2 => generateLoop st2 rest

/-- `generate` (proof.py lines 70-137): fold the per-file processing over the
directory listing (in listing order) and return the final
`proof_response_object`.  `Except.error` models an uncaught exception
(which makes the process exit non-zero, `__main__.py` lines 125-131). -/
def generate (files : List PFile) : Except String ProofState :=
  generateLoop initState files

/-! ### Archive extraction (`__main__.py` lines 112-122) -/

/-- Writing one extracted member to the input directory, modelled on an
association list from file name to content: an existing entry with the same
name is replaced (the filesystem write truncates and overwrites), otherwise
the file is created. -/
def fsWrite (fs : List (String × String)) (name content : String) :
    List (String × String) :=
  match fs with
  | [] => [(name, content)]
  | (n, c) :: rest =>
    if n = name then (name, content) :: rest else (n, c) :: fsWrite rest name content

/-- Reading a file from the modelled directory. -/
def fsLookup (fs : List (String × String)) (name : String) : Option String :=
  match fs with
  | [] => none
  | (n, c) :: rest => if n = name then some c else fsLookup rest name

/-- `zip_ref.extractall(INPUT_DIR)` (`__main__.py` line 122): write every
member of the archive, in order, under its archived name.  `extractall`
performs no collision handling of any kind. -/
def extractall (fs : List (String × String)) (members : List (String × String)) :
    List (String × String) :=
  members.foldl (fun acc m => fsWrite acc m.1 m.2) fs

/-- `extract_input` (`__main__.py` lines 112-122): extract every zip file of
the directory listing into the input directory.  `zips` is the list of member
lists of the entries for which `zipfile.is_zipfile` is true, in listing
order; non-archive entries are untouched. -/
def extract_input (zips : List (List (String × String)))
    (fs : List (String × String)) : List (String × String) :=
  zips.foldl extractall fs

/-! ### Concrete example records used by the theorems -/

/-- A presence-only contribution vouched by the attestation relay. -/
def twitterTrusted : Contribution :=
  { taskSubType := "TWITTER_USERINFO"
    witnesses := "wss://witness.reclaimprotocol.org/ws"
    securedSharedData := { csv := [], coins := 0, pairs := 0, orders := 0 } }

/-- A presence-only contribution with a witness outside the allow-list. -/
def twitterUntrusted : Contribution :=
  { taskSubType := "TWITTER_USERINFO"
    witnesses := "https://other.example.org"
    securedSharedData := { csv := [], coins := 0, pairs := 0, orders := 0 } }

/-- A presence-only FARCASTER contribution (score `50` once present). -/
def farcasterC : Contribution :=
  { taskSubType := "FARCASTER_USERINFO"
    witnesses := "reclaimprotocol.org"
    securedSharedData := { csv := [], coins := 0, pairs := 0, orders := 0 } }

/-- A contribution whose `taskSubType` matches no branch of the dispatch. -/
def unknownC : Contribution :=
  { taskSubType := "SOMETHING_ELSE"
    witnesses := "reclaimprotocol.org"
    securedSharedData := { csv := [], coins := 0, pairs := 0, orders := 0 } }

/-! ## Analysis helpers -/

deriving instance DecidableEq for Except

/-- The subtype strings matched by some branch of the dispatch chain
(proof.py lines 386-409). -/
def recognizedSubtypes : List String :=
  ["NETFLIX_HISTORY", "COINMARKETCAP_USER_WATCHLIST", "AMAZON_ORDER_HISTORY",
   "TRIP_USER_DETAILS", "FARCASTER_USERINFO", "TWITTER_USERINFO", "LINKEDIN_USER_INFO"]

/-- Raw total of the quality loop, contribution by contribution: `none` as
soon as a dispatch crashes or misses (then the loop raises). -/
def bundleRawScore : List Contribution → Option ℚ
  | [] => some 0
  | c :: rest =>
    match dispatchScore c with
    | .score q => (bundleRawScore rest).map (fun r => q + r)
    | _ => none

theorem dictGet_dictSet_self (fs : List (String × ℚ)) (k : String) (v : ℚ) :
    dictGet (dictSet fs k v) k = some v := by
  induction fs with
  | nil => simp [dictSet, dictGet]
  | cons p rest ih =>
    obtain ⟨k2, v2⟩ := p
    by_cases h : k2 = k
    · simp [dictSet, dictGet, h]
    · simp [dictSet, dictGet, h, ih]

theorem dictGet_eq_none (fs : List (String × ℚ)) (k : String)
    (h : ∀ p ∈ fs, p.1 ≠ k) : dictGet fs k = none := by
  induction fs with
  | nil => rfl
  | cons p rest ih =>
    obtain ⟨k2, v2⟩ := p
    have hne : k2 ≠ k := h (k2, v2) (by simp)
    simp only [dictGet, hne, if_false]
    exact ih (fun p hp => h p (by simp [hp]))

theorem dictSet_mem (fs : List (String × ℚ)) (k : String) (v : ℚ) (p : String × ℚ)
    (hp : p ∈ dictSet fs k v) : p = (k, v) ∨ p ∈ fs := by
  induction fs with
  | nil => simpa [dictSet] using hp
  | cons h2 rest ih =>
    obtain ⟨k2, v2⟩ := h2
    by_cases h : k2 = k
    · simp only [dictSet, h, if_pos rfl] at hp
      rcases List.mem_cons.mp hp with h3 | h3
      · exact Or.inl h3
      · exact Or.inr (List.mem_cons.mpr (Or.inr h3))
    · simp only [dictSet, h, if_false] at hp
      rcases List.mem_cons.mp hp with h3 | h3
      · exact Or.inr (List.mem_cons.mpr (Or.inl h3))
      · rcases ih h3 with h4 | h4
        · exact Or.inl h4
        · exact Or.inr (List.mem_cons.mpr (Or.inr h4))

theorem dispatchScore_ne_noMatch (c : Contribution)
    (hmem : c.taskSubType ∈ recognizedSubtypes) : dispatchScore c ≠ .noMatch := by
  simp only [recognizedSubtypes, List.mem_cons, List.not_mem_nil, or_false] at hmem
  rcases hmem with h1 | h1 | h1 | h1 | h1 | h1 | h1
  · unfold dispatchScore
    rw [h1]
    simp only [if_pos rfl]
    cases calculate_watch_score c.securedSharedData.csv "NETFLIX_HISTORY" <;> simp
  all_goals (unfold dispatchScore; rw [h1]; simp)

theorem dispatchScore_recognized (c : Contribution)
    (h : dispatchScore c ≠ .noMatch) : c.taskSubType ∈ recognizedSubtypes := by
  by_contra hmem
  apply h
  simp only [recognizedSubtypes, List.mem_cons, List.not_mem_nil, or_false,
    not_or] at hmem
  obtain ⟨h1, h2, h3, h4, h5, h6, h7⟩ := hmem
  unfold dispatchScore
  simp [h1, h2, h3, h4, h5, h6, h7]

theorem dispatchScore_noMatch_not_recognized (c : Contribution)
    (h : dispatchScore c = .noMatch) : c.taskSubType ∉ recognizedSubtypes :=
  fun hmem => dispatchScore_ne_noMatch c hmem h

/-- The quality loop equals the straight sum of the dispatch scores: the
per-iteration `final_scores[subtype]` read-back returns the value just
assigned, and an unmatched subtype always hits a missing key. -/
theorem qualityLoop_eq (cs : List Contribution) :
    ∀ (fs : List (String × ℚ)) (total : ℚ),
      (∀ p ∈ fs, p.1 ∈ recognizedSubtypes) →
      qualityLoop cs fs total = (bundleRawScore cs).map (fun r => total + r) := by
  induction cs with
  | nil => intro fs total _; simp [qualityLoop, bundleRawScore]
  | cons c rest ih =>
    intro fs total hfs
    cases hd : dispatchScore c with
    | crash => simp [qualityLoop, bundleRawScore, hd]
    | noMatch =>
      have hnm := dispatchScore_noMatch_not_recognized c hd
      have hnone : dictGet fs c.taskSubType = none :=
        dictGet_eq_none fs _ (fun p hp he => hnm (he ▸ hfs p hp))
      simp [qualityLoop, bundleRawScore, hd, hnone]
    | score q =>
      have hrec : c.taskSubType ∈ recognizedSubtypes :=
        dispatchScore_recognized c (by simp [hd])
      have hget := dictGet_dictSet_self fs c.taskSubType q
      have hfs2 : ∀ p ∈ dictSet fs c.taskSubType q, p.1 ∈ recognizedSubtypes := by
        intro p hp
        rcases dictSet_mem fs _ _ p hp with h | h
        · rw [h]; exact hrec
        · exact hfs p h
      simp only [qualityLoop, hd, hget]
      rw [ih _ _ hfs2]
      simp only [bundleRawScore, hd]
      cases bundleRawScore rest with
      | none => simp
      | some r => simp [add_assoc]

/-- The configured maximum total: 15 subtypes worth 50 points each. -/
theorem calculate_max_points_eq : calculate_max_points = 750 := by
  norm_num [calculate_max_points, points]

/-- Workhorse: quality is the raw dispatch-score total divided by 750. -/
theorem calculate_quality_score_eq (d : InputData) :
    calculate_quality_score d = (bundleRawScore d.contribution).map (fun r => r / 750) := by
  unfold calculate_quality_score
  rw [qualityLoop_eq d.contribution [] 0 (by simp)]
  cases bundleRawScore d.contribution with
  | none => simp
  | some r => simp [calculate_max_points_eq]

theorem applyBundle_ownership (st : ProofState) (d : InputData) (q : ℚ) :
    (applyBundle st d q).ownership = some 1 := by
  by_cases h : calculate_authenticity_score d.contribution < 1 <;> simp [applyBundle, h]

theorem applyBundle_uniqueness (st : ProofState) (d : InputData) (q : ℚ) :
    (applyBundle st d q).uniqueness = some 1 := by
  by_cases h : calculate_authenticity_score d.contribution < 1 <;> simp [applyBundle, h]

theorem applyBundle_quality (st : ProofState) (d : InputData) (q : ℚ) :
    (applyBundle st d q).quality = some q := by
  by_cases h : calculate_authenticity_score d.contribution < 1 <;> simp [applyBundle, h]

theorem applyBundle_authenticity (st : ProofState) (d : InputData) (q : ℚ) :
    (applyBundle st d q).authenticity = some (calculate_authenticity_score d.contribution) := by
  by_cases h : calculate_authenticity_score d.contribution < 1 <;> simp [applyBundle, h]

theorem applyBundle_valid (st : ProofState) (d : InputData) (q : ℚ) :
    (applyBundle st d q).valid =
      (if calculate_authenticity_score d.contribution < 1 then false else st.valid) := by
  by_cases h : calculate_authenticity_score d.contribution < 1 <;> simp [applyBundle, h]

/-- Evaluation of `processFile` on a successfully parsed record file. -/
theorem exceptMap_ok {α β : Type} (f : α → β) (x : α) :
    Except.map f (Except.ok x : Except String α) = Except.ok (f x) := rfl

theorem processFile_json (st : ProofState) (f : PFile) (d : InputData) (q : ℚ)
    (hn : f.name ≠ "decrypted_file.json")
    (hj : strLower (fileExt f.name) = ".json")
    (hc : f.content = .utf8Json d)
    (hq : calculate_quality_score d = some q) :
    processFile st f = .ok (applyBundle st d q) := by
  unfold processFile
  simp [hn, hj, hc, hq]

theorem dispatch_twitterTrusted : dispatchScore twitterTrusted = .score 50 := by decide

theorem dispatch_twitterUntrusted : dispatchScore twitterUntrusted = .score 50 := by decide

theorem dispatch_farcaster : dispatchScore farcasterC = .score 50 := by decide

theorem quality_twitterTrusted :
    calculate_quality_score ⟨"0xw", [twitterTrusted]⟩ = some (1/15) := by
  rw [calculate_quality_score_eq]
  norm_num [bundleRawScore, dispatch_twitterTrusted]

theorem quality_twitterUntrusted :
    calculate_quality_score ⟨"0xw", [twitterUntrusted]⟩ = some (1/15) := by
  rw [calculate_quality_score_eq]
  norm_num [bundleRawScore, dispatch_twitterUntrusted]

theorem auth_single_trusted : calculate_authenticity_score [twitterTrusted] = 1 := by
  have h : List.countP (fun c => isTrusted c.witnesses) [twitterTrusted] = 1 := by decide
  simp only [calculate_authenticity_score, h, List.length_cons, List.length_nil]
  norm_num [round5, roundHalfEven, Int.fract, round_eq]

theorem auth_single_untrusted : calculate_authenticity_score [twitterUntrusted] = 0 := by
  have h : List.countP (fun c => isTrusted c.witnesses) [twitterUntrusted] = 0 := by decide
  simp only [calculate_authenticity_score, h, List.length_cons, List.length_nil]
  norm_num [round5, roundHalfEven, Int.fract, round_eq]

theorem auth_one_of_three :
    calculate_authenticity_score [twitterTrusted, twitterUntrusted, twitterUntrusted] =
      33333/100000 := by
  have h : List.countP (fun c => isTrusted c.witnesses)
      [twitterTrusted, twitterUntrusted, twitterUntrusted] = 1 := by decide
  simp only [calculate_authenticity_score, h, List.length_cons, List.length_nil]
  norm_num [round5, roundHalfEven, Int.fract, round_eq]
  decide

/-- `roundHalfEven` lies between `⌊y⌋` and `⌊y + 1/2⌋`. -/
theorem roundHalfEven_bounds (y : ℚ) :
    ⌊y⌋ ≤ roundHalfEven y ∧ roundHalfEven y ≤ ⌊y + 1/2⌋ := by
  unfold roundHalfEven
  by_cases h : Int.fract y = 1/2
  · have hy : y = (⌊y⌋ : ℚ) + 1/2 := by
      have h2 : y - (⌊y⌋ : ℚ) = 1/2 := (Int.self_sub_floor y).trans h
      linarith
    have hfloor : ⌊y + 1/2⌋ = ⌊y⌋ + 1 := by
      rw [hy, show ((⌊y⌋ : ℚ) + 1/2 + 1/2) = ((⌊y⌋ + 1 : ℤ) : ℚ) by push_cast; ring]
      simp
      norm_num
    rw [if_pos h, hfloor]
    split_ifs <;> omega
  · rw [if_neg h, round_eq]
    exact ⟨Int.floor_mono (by linarith), le_refl _⟩

theorem round5_nonneg (x : ℚ) (h : 0 ≤ x) : 0 ≤ round5 x := by
  unfold round5
  have h1 : (0 : ℤ) ≤ ⌊x * 100000⌋ := Int.floor_nonneg.mpr (by positivity)
  have h2 : (0 : ℤ) ≤ roundHalfEven (x * 100000) :=
    le_trans h1 (roundHalfEven_bounds (x * 100000)).1
  have h3 : (0 : ℚ) ≤ (roundHalfEven (x * 100000) : ℚ) := by exact_mod_cast h2
  positivity

theorem round5_le_one (x : ℚ) (h : x ≤ 1) : round5 x ≤ 1 := by
  unfold round5
  have h2 := (roundHalfEven_bounds (x * 100000)).2
  have h3 : ⌊x * 100000 + 1/2⌋ ≤ 100000 := by
    rw [Int.floor_le_iff]
    push_cast
    linarith
  have h4 : roundHalfEven (x * 100000) ≤ 100000 := le_trans h2 h3
  rw [div_le_one (by norm_num)]
  exact_mod_cast h4

/-- The rounding error of `round(x, 5)` is at most half of `1e-5`. -/
theorem abs_round5_sub (x : ℚ) : |round5 x - x| ≤ 1/200000 := by
  have key : |(roundHalfEven (x * 100000) : ℚ) - x * 100000| ≤ 1/2 := by
    unfold roundHalfEven
    by_cases h : Int.fract (x * 100000) = 1/2
    · have h2 : x * 100000 - (⌊x * 100000⌋ : ℚ) = 1/2 := by
        rw [Int.self_sub_floor]; exact h
      rw [if_pos h]
      split_ifs <;> rw [abs_le] <;> constructor <;> push_cast <;> linarith
    · rw [if_neg h, abs_sub_comm]
      exact abs_sub_round (x * 100000)
  have heq : round5 x - x = ((roundHalfEven (x * 100000) : ℚ) - x * 100000) / 100000 := by
    unfold round5
    field_simp
    ring
  rw [heq, abs_div, abs_of_pos (show (0:ℚ) < 100000 by norm_num)]
  rw [div_le_iff₀ (show (0:ℚ) < 100000 by norm_num)]
  calc |(roundHalfEven (x * 100000) : ℚ) - x * 100000| ≤ 1/2 := key
  _ = 1/200000 * 100000 := by norm_num

/-- Authenticity is always a rational in `[0, 1]`. -/
theorem calculate_authenticity_score_bounds (cs : List Contribution) :
    0 ≤ calculate_authenticity_score cs ∧ calculate_authenticity_score cs ≤ 1 := by
  unfold calculate_authenticity_score
  by_cases h : cs = []
  · simp [h]
  · rw [if_neg h]
    have hlen : 0 < cs.length := List.length_pos.mpr h
    have hlenq : (0 : ℚ) < (cs.length : ℚ) := by exact_mod_cast hlen
    have hcount : cs.countP (fun c => isTrusted c.witnesses) ≤ cs.length :=
      List.countP_le_length _
    have h0 : (0 : ℚ) ≤ (cs.countP (fun c => isTrusted c.witnesses) : ℚ) / (cs.length : ℚ) :=
      div_nonneg (by positivity) (le_of_lt hlenq)
    have h1 : (cs.countP (fun c => isTrusted c.witnesses) : ℚ) / (cs.length : ℚ) ≤ 1 := by
      rw [div_le_one hlenq]
      exact_mod_cast hcount
    exact ⟨round5_nonneg _ h0, round5_le_one _ h1⟩

theorem mean_bounds (l : List ℚ) (B : ℚ) (hB : 0 ≤ B)
    (h : ∀ x ∈ l, 0 ≤ x ∧ x ≤ B) :
    0 ≤ (if l = [] then (0 : ℚ) else l.sum / (l.length : ℚ)) ∧
      (if l = [] then (0 : ℚ) else l.sum / (l.length : ℚ)) ≤ B := by
  by_cases hl : l = []
  · simp [hl, hB]
  · rw [if_neg hl]
    have hlen : (0 : ℚ) < (l.length : ℚ) := by
      exact_mod_cast List.length_pos.mpr hl
    have hs0 : 0 ≤ l.sum := List.sum_nonneg (fun x hx => (h x hx).1)
    have hsB : l.sum ≤ (l.length : ℚ) * B := by
      have h2 := List.sum_le_card_nsmul l B (fun x hx => (h x hx).2)
      rwa [nsmul_eq_mul] at h2
    refine ⟨div_nonneg hs0 (le_of_lt hlen), ?_⟩
    rw [div_le_iff₀ hlen, mul_comm]
    exact hsB

theorem get_watch_history_score_bounds (n : Nat) (t : String)
    (hp : pointsGet t = 50) :
    0 ≤ get_watch_history_score n t ∧ get_watch_history_score n t ≤ 50 := by
  simp only [get_watch_history_score, hp]
  split_ifs <;> norm_num

theorem calculate_watch_score_bounds (dates : List Int) (t : String) (r : ℚ × List ℚ)
    (hp : pointsGet t = 50) (h : calculate_watch_score dates t = some r) :
    0 ≤ r.1 ∧ r.1 ≤ 50 := by
  cases dates with
  | nil => simp [calculate_watch_score] at h
  | cons d ds =>
    simp only [calculate_watch_score] at h
    have hr := (Option.some.inj h).symm
    have hbounds := mean_bounds
      ((intervalCounts (d :: ds)).map (fun c => get_watch_history_score c t)) 50
      (by norm_num)
      (by
        intro x hx
        obtain ⟨n, _, rfl⟩ := List.mem_map.mp hx
        exact get_watch_history_score_bounds n t hp)
    rw [hr]
    exact hbounds

theorem dispatchScore_bounds (c : Contribution) (q : ℚ)
    (h : dispatchScore c = .score q) : 0 ≤ q ∧ q ≤ 50 := by
  unfold dispatchScore at h
  by_cases h1 : c.taskSubType = "NETFLIX_HISTORY"
  · rw [if_pos h1] at h
    cases hw : calculate_watch_score c.securedSharedData.csv c.taskSubType with
    | none => rw [hw] at h; simp at h
    | some r =>
      rw [hw] at h
      simp only [DispatchResult.score.injEq] at h
      subst h
      exact calculate_watch_score_bounds _ _ _ (by rw [h1]; decide) hw
  · rw [if_neg h1] at h
    by_cases h2 : c.taskSubType = "COINMARKETCAP_USER_WATCHLIST"
    · rw [if_pos h2] at h
      simp only [DispatchResult.score.injEq] at h
      subst h
      have hp : pointsGet c.taskSubType = 50 := by rw [h2]; decide
      simp only [get_coins_pairs_score, hp]
      split_ifs <;> norm_num
    · rw [if_neg h2] at h
      by_cases h3 : c.taskSubType = "AMAZON_ORDER_HISTORY" ∨ c.taskSubType = "TRIP_USER_DETAILS"
      · rw [if_pos h3] at h
        simp only [DispatchResult.score.injEq] at h
        subst h
        have hp : pointsGet c.taskSubType = 50 := by
          rcases h3 with h3 | h3 <;> rw [h3] <;> decide
        by_cases ho : c.securedSharedData.orders = 0
        · simp [ho]
        · simp only [ho, if_false]
          simp only [get_order_history_score, hp]
          split_ifs <;> norm_num
      · rw [if_neg h3] at h
        by_cases h4 : c.taskSubType = "FARCASTER_USERINFO" ∨
            c.taskSubType = "TWITTER_USERINFO" ∨ c.taskSubType = "LINKEDIN_USER_INFO"
        · rw [if_pos h4] at h
          simp only [DispatchResult.score.injEq] at h
          subst h
          have hp : pointsGet c.taskSubType = 50 := by
            rcases h4 with h4 | h4 | h4 <;> rw [h4] <;> decide
          rw [hp]
          norm_num
        · rw [if_neg h4] at h
          simp at h

theorem bundleRawScore_bounds (cs : List Contribution) :
    ∀ r, bundleRawScore cs = some r → 0 ≤ r ∧ r ≤ 50 * cs.length := by
  induction cs with
  | nil =>
    intro r h
    simp only [bundleRawScore, Option.some.injEq] at h
    subst h
    simp
  | cons c rest ih =>
    intro r h
    simp only [bundleRawScore] at h
    cases hd : dispatchScore c with
    | crash => rw [hd] at h; simp at h
    | noMatch => rw [hd] at h; simp at h
    | score q =>
      rw [hd] at h
      cases hb : bundleRawScore rest with
      | none => rw [hb] at h; simp at h
      | some r2 =>
        rw [hb] at h
        simp only [Option.map_some', Option.some.injEq] at h
        obtain ⟨hq0, hq50⟩ := dispatchScore_bounds c q hd
        obtain ⟨h20, h2l⟩ := ih r2 hb
        subst h
        constructor
        · linarith
        · simp only [List.length_cons]
          push_cast
          linarith

theorem bundleRawScore_recognized (cs : List Contribution) :
    ∀ r, bundleRawScore cs = some r →
      ∀ c ∈ cs, c.taskSubType ∈ recognizedSubtypes := by
  induction cs with
  | nil => intro r _ c hc; simp at hc
  | cons c0 rest ih =>
    intro r h c hc
    simp only [bundleRawScore] at h
    cases hd : dispatchScore c0 with
    | crash => rw [hd] at h; simp at h
    | noMatch => rw [hd] at h; simp at h
    | score q =>
      rw [hd] at h
      cases hb : bundleRawScore rest with
      | none => rw [hb] at h; simp at h
      | some r2 =>
        rcases List.mem_cons.mp hc with rfl | hc2
        · exact dispatchScore_recognized c (by simp [hd])
        · exact ih r2 hb c hc2

theorem nodup_recognized_length (cs : List Contribution)
    (hnd : (cs.map (fun c => c.taskSubType)).Nodup)
    (hrec : ∀ c ∈ cs, c.taskSubType ∈ recognizedSubtypes) :
    cs.length ≤ 7 := by
  classical
  have h1 : (cs.map (fun c => c.taskSubType)).toFinset.card
      = (cs.map (fun c => c.taskSubType)).length :=
    List.toFinset_card_of_nodup hnd
  have hsub : (cs.map (fun c => c.taskSubType)).toFinset ⊆
      recognizedSubtypes.toFinset := by
    intro x hx
    rw [List.mem_toFinset] at hx ⊢
    obtain ⟨c, hc, rfl⟩ := List.mem_map.mp hx
    exact hrec c hc
  have h2 := Finset.card_le_card hsub
  have h3 : recognizedSubtypes.toFinset.card ≤ recognizedSubtypes.length :=
    List.toFinset_card_le recognizedSubtypes
  have h4 : recognizedSubtypes.length = 7 := rfl
  have h5 : (cs.map (fun c => c.taskSubType)).length = cs.length := List.length_map _ _
  omega

/-! ## Claim theorems -/

/-- C1: the produced verdict's `ownership` field is the hard-coded constant
`1.0` for every processed record file — the `calculate_ownership_score` call
is commented out (proof.py lines 114-121) — so it does not equal the
Ownership Verifier's value: for the very same record data the verifier
returns `0.0` when the validator answers HTTP 400 or the network fails. -/
theorem C1_ownership_hardcoded :
    (generate [⟨"input.json", .utf8Json ⟨"0xw", [twitterTrusted]⟩⟩]).map
        (fun st => st.ownership) = .ok (some 1) ∧
    (generate [⟨"input.json", .utf8Json ⟨"0xw", [twitterUntrusted]⟩⟩]).map
        (fun st => st.ownership) = .ok (some 1) ∧
    calculate_ownership_score "token" ⟨"0xw", ["TWITTER_USERINFO"]⟩ (.response 400) =
      .ok 0 ∧
    calculate_ownership_score "token" ⟨"0xw", ["TWITTER_USERINFO"]⟩ .networkError =
      .ok 0 := by
  have h1 := processFile_json initState ⟨"input.json", .utf8Json ⟨"0xw", [twitterTrusted]⟩⟩
    _ _ (by decide) (by decide) rfl quality_twitterTrusted
  have h2 := processFile_json initState ⟨"input.json", .utf8Json ⟨"0xw", [twitterUntrusted]⟩⟩
    _ _ (by decide) (by decide) rfl quality_twitterUntrusted
  refine ⟨?_, ?_, by decide, by decide⟩
  · simp only [generate, generateLoop, h1, exceptMap_ok]
    rw [applyBundle_ownership]
  · simp only [generate, generateLoop, h2, exceptMap_ok]
    rw [applyBundle_ownership]

/-- C2 (amended): authenticity always lies in `[0, 1]`; quality, whenever the
scorer returns a value, is nonnegative, and is at most `1` provided no
`taskSubType` occurs more than once in the bundle.  With repeated subtypes
quality can exceed `1` (see the counterexample): each occurrence re-assigns
`final_scores[subtype]` and the raw total adds every occurrence's score. -/
theorem C2_amended (d : InputData) (q : ℚ)
    (hq : calculate_quality_score d = some q) :
    0 ≤ calculate_authenticity_score d.contribution ∧
    calculate_authenticity_score d.contribution ≤ 1 ∧
    0 ≤ q ∧
    ((d.contribution.map (fun c => c.taskSubType)).Nodup → q ≤ 1) := by
  obtain ⟨ha0, ha1⟩ := calculate_authenticity_score_bounds d.contribution
  rw [calculate_quality_score_eq] at hq
  cases hr : bundleRawScore d.contribution with
  | none => rw [hr] at hq; simp at hq
  | some r =>
    rw [hr] at hq
    simp only [Option.map_some', Option.some.injEq] at hq
    obtain ⟨hr0, hrle⟩ := bundleRawScore_bounds d.contribution r hr
    refine ⟨ha0, ha1, ?_, ?_⟩
    · rw [← hq]; positivity
    · intro hnd
      have hrec := bundleRawScore_recognized d.contribution r hr
      have hlen := nodup_recognized_length d.contribution hnd hrec
      have hlenq : (d.contribution.length : ℚ) ≤ 7 := by exact_mod_cast hlen
      have hr350 : r ≤ 350 := by linarith
      rw [← hq, div_le_one (by norm_num)]
      linarith

/-- C2 witness: the amended statement instantiated on a concrete bundle with
a single TWITTER contribution (quality `1/15`). -/
theorem C2_amended_witness :
    calculate_quality_score ⟨"0xw", [twitterTrusted]⟩ = some (1/15) ∧
    (0 ≤ calculate_authenticity_score
        (⟨"0xw", [twitterTrusted]⟩ : InputData).contribution ∧
     calculate_authenticity_score
        (⟨"0xw", [twitterTrusted]⟩ : InputData).contribution ≤ 1 ∧
     0 ≤ (1/15 : ℚ) ∧
     (((⟨"0xw", [twitterTrusted]⟩ : InputData).contribution.map
        (fun c => c.taskSubType)).Nodup → (1/15 : ℚ) ≤ 1)) :=
  ⟨quality_twitterTrusted, C2_amended _ _ quality_twitterTrusted⟩

/-- C2 counterexample: quality exceeds `1` on a bundle of 16 contributions
that all carry the subtype `FARCASTER_USERINFO`: each adds `50` to the raw
total, giving `800 / 750 = 16/15 > 1`. -/
theorem C2_counterexample :
    calculate_quality_score ⟨"0xw", List.replicate 16 farcasterC⟩ = some (16/15) ∧
    (1 : ℚ) < 16/15 := by
  constructor
  · rw [calculate_quality_score_eq]
    have h16 : List.replicate 16 farcasterC =
        [farcasterC, farcasterC, farcasterC, farcasterC, farcasterC, farcasterC,
         farcasterC, farcasterC, farcasterC, farcasterC, farcasterC, farcasterC,
         farcasterC, farcasterC, farcasterC, farcasterC] := by decide
    rw [show (⟨"0xw", List.replicate 16 farcasterC⟩ : InputData).contribution =
      List.replicate 16 farcasterC from rfl, h16]
    norm_num [bundleRawScore, dispatch_farcaster]
  · norm_num

/-- C3: a contribution with an unrecognized `taskSubType` does not contribute
zero: the unconditional `total_secured_score += final_scores[task_subtype]`
(proof.py line 412) raises `KeyError`, aborting quality scoring (and the whole
run), both when the unrecognized contribution is alone and when it follows a
recognized one. -/
theorem C3_unrecognized_subtype_crashes :
    calculate_quality_score ⟨"0xw", [unknownC]⟩ = none ∧
    calculate_quality_score ⟨"0xw", [twitterTrusted, unknownC]⟩ = none := by
  exact ⟨rfl, rfl⟩

/-- C4 counterexample: with `M = 50`, a count of 4 orders scores
`M * 0.1 = 5`, not the claimed `M * 0.5 = 25`: the code tiers are
`>= 10 / 5..9 / 1..4 / 0` (proof.py lines 306-316), not `>= 10 / 4..9 / 1..3 / 0`. -/
theorem C4_counterexample :
    get_order_history_score 4 "AMAZON_ORDER_HISTORY" = 5 ∧
    (5 : ℚ) ≠ 50 * (1/2) := by
  have hp : pointsGet "AMAZON_ORDER_HISTORY" = 50 := by decide
  constructor
  · norm_num [get_order_history_score, hp]
  · norm_num

/-- C4 (amended): for the two count-based subtypes (order history and trip
history, both with configured maximum `M = 50`) the tier boundaries of the
code are `n ≥ 10 → M`, `5 ≤ n ≤ 9 → M·0.5`, `1 ≤ n ≤ 4 → M·0.1` and
`n = 0 → 0`; in particular a contribution with 7 orders scores `25`, as the
claim's scenario states. -/
theorem C4_amended (n : Nat) (t : String)
    (ht : t = "AMAZON_ORDER_HISTORY" ∨ t = "TRIP_USER_DETAILS") :
    get_order_history_score n t =
      (if 10 ≤ n then (50 : ℚ) else if 5 ≤ n then 25 else if 1 ≤ n then 5 else 0) ∧
    get_order_history_score 7 "AMAZON_ORDER_HISTORY" = 25 := by
  have hp : pointsGet t = 50 := by rcases ht with h | h <;> rw [h] <;> decide
  have hp2 : pointsGet "AMAZON_ORDER_HISTORY" = 50 := by decide
  constructor
  · simp only [get_order_history_score, hp]
    split_ifs <;> first | (exfalso; omega) | norm_num
  · norm_num [get_order_history_score, hp2]

/-- C4 witness: the amended statement instantiated at 7 orders of
`AMAZON_ORDER_HISTORY`. -/
theorem C4_amended_witness :
    ("AMAZON_ORDER_HISTORY" = "AMAZON_ORDER_HISTORY" ∨
      "AMAZON_ORDER_HISTORY" = "TRIP_USER_DETAILS") ∧
    (get_order_history_score 7 "AMAZON_ORDER_HISTORY" =
      (if 10 ≤ 7 then (50 : ℚ) else if 5 ≤ 7 then 25 else if 1 ≤ 7 then 5 else 0) ∧
     get_order_history_score 7 "AMAZON_ORDER_HISTORY" = 25) :=
  ⟨Or.inl rfl, C4_amended 7 "AMAZON_ORDER_HISTORY" (Or.inl rfl)⟩

/-- C5 counterexample: with two record files where only the second has
authenticity `1.0`, the returned verdict keeps `valid = false` — `valid` is
only ever set to `False` (proof.py lines 124-125), never back to `True`, so it
is not replaced per file and is not determined by the last file alone. -/
theorem C5_counterexample :
    (generate [⟨"a.json", .utf8Json ⟨"0xw", [twitterUntrusted]⟩⟩,
               ⟨"b.json", .utf8Json ⟨"0xw", [twitterTrusted]⟩⟩]).map
      (fun st => (st.valid, st.authenticity)) = .ok (false, some 1) := by
  have h1 := processFile_json initState ⟨"a.json", .utf8Json ⟨"0xw", [twitterUntrusted]⟩⟩
    _ _ (by decide) (by decide) rfl quality_twitterUntrusted
  have h2 := processFile_json (applyBundle initState ⟨"0xw", [twitterUntrusted]⟩ (1/15))
    ⟨"b.json", .utf8Json ⟨"0xw", [twitterTrusted]⟩⟩
    _ _ (by decide) (by decide) rfl quality_twitterTrusted
  simp only [generate, generateLoop, h1, h2, exceptMap_ok]
  have hv1 : (applyBundle initState ⟨"0xw", [twitterUntrusted]⟩ (1/15)).valid = false := by
    rw [applyBundle_valid]
    simp only [auth_single_untrusted]
    norm_num
  have hv2 : (applyBundle (applyBundle initState ⟨"0xw", [twitterUntrusted]⟩ (1/15))
      ⟨"0xw", [twitterTrusted]⟩ (1/15)).valid = false := by
    rw [applyBundle_valid]
    simp only [auth_single_trusted]
    rw [hv1]
    norm_num
  rw [hv2, applyBundle_authenticity, auth_single_trusted]

/-- The successfully parsed record of one directory entry, when branch 2 of
`processFile` accepts it. -/
def fileBundle (f : PFile) : Option InputData :=
  match f.content with
  | .utf8Json d => if strLower (fileExt f.name) = ".json" then some d else none
  | _ => none

/-- The records parsed from the listing, in listing order. -/
def jsonBundles (files : List PFile) : List InputData :=
  files.filterMap fileBundle

theorem processFile_ok_cases (st0 : ProofState) (f : PFile) (st1 : ProofState)
    (h : processFile st0 f = .ok st1) :
    (fileBundle f = none ∧ st1 = st0) ∨
    (∃ d q, fileBundle f = some d ∧ calculate_quality_score d = some q ∧
      st1 = applyBundle st0 d q) := by
  unfold processFile at h
  by_cases hn : f.name = "decrypted_file.json"
  · rw [if_pos hn] at h
    cases hc : f.content with
    | utf8Json d => rw [hc] at h; simp at h
    | utf8Malformed => rw [hc] at h; simp at h
    | nonUtf8 =>
      rw [hc] at h
      have hdj : strLower (fileExt f.name) = ".json" := by rw [hn]; decide
      simp [hdj] at h
  · rw [if_neg hn] at h
    by_cases hj : strLower (fileExt f.name) = ".json"
    · cases hc : f.content with
      | utf8Json d =>
        rw [hc] at h
        simp only [hj, if_pos] at h
        cases hq : calculate_quality_score d with
        | none => rw [hq] at h; simp at h
        | some q =>
          rw [hq] at h
          simp only [Except.ok.injEq] at h
          exact Or.inr ⟨d, q, by simp [fileBundle, hc, hj], hq, h.symm⟩
      | utf8Malformed => rw [hc] at h; simp [hj] at h
      | nonUtf8 => rw [hc] at h; simp [hj] at h
    · refine Or.inl ⟨?_, ?_⟩
      · cases hc : f.content <;> simp [fileBundle, hc, hj]
      · cases hc : f.content <;> rw [hc] at h <;> simp [hj] at h <;> exact h.symm

/-- Full characterization of a successful run of the `generate` loop from an
arbitrary starting state: `valid` is sticky (it stays `false` forever once
any processed record has authenticity below 1), while the four score fields
are wholly replaced by each processed record, so they reflect only the last
one. -/
theorem generateLoop_ok_char (files : List PFile) :
    ∀ (st0 st : ProofState), generateLoop st0 files = .ok st →
      (st.valid = true ↔ (st0.valid = true ∧
        ∀ d ∈ jsonBundles files,
          ¬ calculate_authenticity_score d.contribution < 1)) ∧
      (jsonBundles files = [] → st = { st0 with valid := st.valid }) ∧
      (∀ d, (jsonBundles files).getLast? = some d →
        st.authenticity = some (calculate_authenticity_score d.contribution) ∧
        st.quality = calculate_quality_score d ∧
        st.ownership = some 1 ∧ st.uniqueness = some 1) := by
  induction files with
  | nil =>
    intro st0 st h
    simp only [generateLoop, Except.ok.injEq] at h
    subst h
    refine ⟨by simp [jsonBundles], fun _ => rfl, ?_⟩
    intro d hd
    simp [jsonBundles] at hd
  | cons f rest ih =>
    intro st0 st h
    simp only [generateLoop] at h
    cases hpf : processFile st0 f with
    | error e => rw [hpf] at h; simp at h
    | ok st1 =>
      rw [hpf] at h
      obtain ⟨ihv, ihe, ihl⟩ := ih st1 st h
      rcases processFile_ok_cases st0 f st1 hpf with ⟨hfb, rfl⟩ | ⟨d, q, hfb, hq, rfl⟩
      · have hjb : jsonBundles (f :: rest) = jsonBundles rest := by
          simp [jsonBundles, List.filterMap_cons, hfb]
        rw [hjb]
        exact ⟨ihv, ihe, ihl⟩
      · have hjb : jsonBundles (f :: rest) = d :: jsonBundles rest := by
          simp [jsonBundles, List.filterMap_cons, hfb]
        rw [hjb]
        refine ⟨?_, ?_, ?_⟩
        · rw [ihv, applyBundle_valid]
          by_cases ha : calculate_authenticity_score d.contribution < 1
          · rw [if_pos ha]
            simp only [List.forall_mem_cons]
            constructor
            · rintro ⟨h1, -⟩
              exact Bool.noConfusion h1
            · rintro ⟨-, h2, -⟩
              exact absurd ha h2
          · rw [if_neg ha]
            simp only [List.forall_mem_cons]
            constructor
            · rintro ⟨h1, h2⟩
              exact ⟨h1, ha, h2⟩
            · rintro ⟨h1, -, h2⟩
              exact ⟨h1, h2⟩
        · intro habs
          exact absurd habs (List.cons_ne_nil _ _)
        · intro dl hdl
          cases hrest : jsonBundles rest with
          | nil =>
            rw [hrest] at hdl
            simp only [List.getLast?_singleton, Option.some.injEq] at hdl
            subst hdl
            have hst := ihe hrest
            have hA : st.authenticity = (applyBundle st0 d q).authenticity := by
              rw [hst]
            have hQ : st.quality = (applyBundle st0 d q).quality := by rw [hst]
            have hO : st.ownership = (applyBundle st0 d q).ownership := by rw [hst]
            have hU : st.uniqueness = (applyBundle st0 d q).uniqueness := by rw [hst]
            refine ⟨?_, ?_, ?_, ?_⟩
            · rw [hA, applyBundle_authenticity]
            · rw [hQ, applyBundle_quality, hq]
            · rw [hO, applyBundle_ownership]
            · rw [hU, applyBundle_uniqueness]
          | cons x xs =>
            refine ihl dl ?_
            rw [hrest] at hdl ⊢
            rw [List.getLast?_cons_cons] at hdl
            exact hdl

/-- C5 (amended): on a successful multi-file run the four sub-score fields
(and hence the score) are fully replaced per file and reflect exactly the
last processed record file — but the `valid` flag is not: it is true iff
every processed record file's authenticity is not below `1.0` (it is set to
`False` once and never reset), so it is not determined by the last file
alone. -/
theorem C5_amended (files : List PFile) (st : ProofState)
    (h : generate files = .ok st) :
    (st.valid = true ↔
      ∀ d ∈ jsonBundles files,
        ¬ calculate_authenticity_score d.contribution < 1) ∧
    (∀ d, (jsonBundles files).getLast? = some d →
      st.authenticity = some (calculate_authenticity_score d.contribution) ∧
      st.quality = calculate_quality_score d ∧
      st.ownership = some 1 ∧ st.uniqueness = some 1) := by
  obtain ⟨hv, -, hl⟩ := generateLoop_ok_char files initState st h
  refine ⟨?_, hl⟩
  rw [hv]
  simp [initState]

/-- C5 witness: the amended statement instantiated on a one-file run. -/
theorem C5_amended_witness :
    generate [⟨"b.json", .utf8Json ⟨"0xw", [twitterTrusted]⟩⟩] =
      .ok (applyBundle initState ⟨"0xw", [twitterTrusted]⟩ (1/15)) ∧
    (((applyBundle initState ⟨"0xw", [twitterTrusted]⟩ (1/15)).valid = true ↔
      ∀ d ∈ jsonBundles [⟨"b.json", .utf8Json ⟨"0xw", [twitterTrusted]⟩⟩],
        ¬ calculate_authenticity_score d.contribution < 1) ∧
    (∀ d, (jsonBundles [⟨"b.json", .utf8Json ⟨"0xw", [twitterTrusted]⟩⟩]).getLast? =
        some d →
      (applyBundle initState ⟨"0xw", [twitterTrusted]⟩ (1/15)).authenticity =
        some (calculate_authenticity_score d.contribution) ∧
      (applyBundle initState ⟨"0xw", [twitterTrusted]⟩ (1/15)).quality =
        calculate_quality_score d ∧
      (applyBundle initState ⟨"0xw", [twitterTrusted]⟩ (1/15)).ownership = some 1 ∧
      (applyBundle initState ⟨"0xw", [twitterTrusted]⟩ (1/15)).uniqueness = some 1)) := by
  have h1 := processFile_json initState ⟨"b.json", .utf8Json ⟨"0xw", [twitterTrusted]⟩⟩
    _ _ (by decide) (by decide) rfl quality_twitterTrusted
  have hgen : generate [⟨"b.json", .utf8Json ⟨"0xw", [twitterTrusted]⟩⟩] =
      .ok (applyBundle initState ⟨"0xw", [twitterTrusted]⟩ (1/15)) := by
    simp only [generate, generateLoop, h1]
  exact ⟨hgen, C5_amended _ _ hgen⟩

/-- C6 counterexample: for a watch-history contribution with two events one
day apart, `pd.date_range` yields a single point, hence zero windows: no
event is bucketed at all (the window counts sum to `0`, not `2`) and the
score is `0` rather than the mean over a covering window. -/
theorem C6_counterexample :
    intervalCounts [0, 1] = [] ∧
    ([0, 1] : List Int).length = 2 ∧
    calculate_watch_score [0, 1] "NETFLIX_HISTORY" = some (0, []) := by
  exact ⟨rfl, rfl, rfl⟩

theorem countP_add_disjoint (l : List Int) (p r : Int → Bool)
    (hdisj : ∀ a, ¬(p a = true ∧ r a = true)) :
    l.countP p + l.countP r = l.countP (fun a => p a || r a) := by
  induction l with
  | nil => simp
  | cons x xs ih =>
    rw [List.countP_cons, List.countP_cons, List.countP_cons]
    by_cases hp : p x = true
    · by_cases hr : r x = true
      · exact absurd ⟨hp, hr⟩ (hdisj x)
      · simp only [hp, hr]
        simp
        omega
    · by_cases hr : r x = true
      · simp only [hp, hr]
        simp
        omega
      · simp only [hp, hr]
        simp
        omega

/-- Telescoping the 15-day windows: the window counts add up to the number of
events in `[s, s + 15k)`. -/
theorem intervalCounts_sum (l : List Int) (s : Int) (k : Nat) :
    ((List.range k).map (fun i : Nat =>
        l.countP (fun d => decide (s + 15 * (i : Int) ≤ d) &&
          decide (d < s + 15 * ((i : Int) + 1))))).sum =
      l.countP (fun d => decide (s ≤ d) && decide (d < s + 15 * (k : Int))) := by
  induction k with
  | zero =>
    simp only [List.range_zero, List.map_nil, List.sum_nil]
    symm
    rw [List.countP_eq_zero]
    intro a _
    simp only [Bool.and_eq_true, decide_eq_true_eq, not_and]
    intro h1 h2
    omega
  | succ n ih =>
    rw [List.range_succ, List.map_append, List.sum_append]
    simp only [List.map_cons, List.map_nil, List.sum_cons, List.sum_nil, add_zero]
    rw [ih, countP_add_disjoint]
    · refine List.countP_congr ?_
      intro a _
      simp only [Bool.or_eq_true, Bool.and_eq_true, decide_eq_true_eq]
      constructor
      · rintro (⟨h1, h2⟩ | ⟨h1, h2⟩) <;> refine ⟨by omega, by push_cast at h2 ⊢; omega⟩
      · rintro ⟨h1, h2⟩
        push_cast at h2
        by_cases h3 : a < s + 15 * (n : Int)
        · exact Or.inl ⟨h1, h3⟩
        · push_neg at h3
          exact Or.inr ⟨h3, by omega⟩
    · intro a
      simp only [Bool.and_eq_true, decide_eq_true_eq]
      rintro ⟨⟨h1, h2⟩, h3, h4⟩
      omega

theorem foldl_min_le (xs : List Int) :
    ∀ a : Int, xs.foldl min a ≤ a ∧ ∀ x ∈ xs, xs.foldl min a ≤ x := by
  induction xs with
  | nil =>
    intro a
    exact ⟨le_refl a, by simp⟩
  | cons y ys ih =>
    intro a
    simp only [List.foldl_cons]
    obtain ⟨h1, h2⟩ := ih (min a y)
    refine ⟨le_trans h1 (min_le_left a y), ?_⟩
    intro x hx
    rcases List.mem_cons.mp hx with rfl | hx2
    · exact le_trans h1 (min_le_right a x)
    · exact h2 x hx2

theorem listMin_le_mem (l : List Int) : ∀ d ∈ l, listMin l ≤ d := by
  cases l with
  | nil => intro d hd; exact absurd hd (List.not_mem_nil d)
  | cons x xs =>
    intro d hd
    rcases List.mem_cons.mp hd with rfl | hd2
    · exact (foldl_min_le xs d).1
    · exact (foldl_min_le xs x).2 d hd2

theorem foldl_max_mem (xs : List Int) :
    ∀ a : Int, xs.foldl max a = a ∨ xs.foldl max a ∈ xs := by
  induction xs with
  | nil => intro a; exact Or.inl rfl
  | cons y ys ih =>
    intro a
    simp only [List.foldl_cons]
    rcases ih (max a y) with h | h
    · rcases max_choice a y with h2 | h2
      · exact Or.inl (h.trans h2)
      · exact Or.inr (List.mem_cons.mpr (Or.inl (h.trans h2)))
    · exact Or.inr (List.mem_cons.mpr (Or.inr h))

theorem listMax_mem (l : List Int) (hl : l ≠ []) : listMax l ∈ l := by
  cases l with
  | nil => exact absurd rfl hl
  | cons x xs =>
    rcases foldl_max_mem xs x with h | h
    · rw [listMax, h]
      exact List.mem_cons_self x xs
    · rw [listMax]
      exact List.mem_cons.mpr (Or.inr h)

/-- C6 (amended): the scorer does not bucket every event.  The window counts
sum to the number of events strictly before the last `date_range` point
`lastRangePoint = earliest + 15·⌊span/15⌋`; that point never exceeds the
latest event, so the latest event (a member of the list) is always excluded
from the bucketing, and a contribution spanning fewer than 15 days has no
window at all and scores 0.  The returned score is the mean of the window
scores of exactly these windows (`0` when there is none). -/
theorem C6_amended (dates : List Int) (hne : dates ≠ []) (t : String) :
    (∃ r, calculate_watch_score dates t = some r ∧
      r.2 = (intervalCounts dates).map (fun c => get_watch_history_score c t) ∧
      r.1 = (if r.2 = [] then (0 : ℚ) else r.2.sum / (r.2.length : ℚ))) ∧
    (intervalCounts dates).sum =
      dates.countP (fun d => decide (d < lastRangePoint dates)) ∧
    lastRangePoint dates ≤ listMax dates ∧
    listMax dates ∈ dates := by
  have hmaxmem : listMax dates ∈ dates := listMax_mem dates hne
  have hminmax : listMin dates ≤ listMax dates := listMin_le_mem dates _ hmaxmem
  refine ⟨?_, ?_, ?_, hmaxmem⟩
  · cases dates with
    | nil => exact absurd rfl hne
    | cons x xs => exact ⟨_, rfl, rfl, rfl⟩
  · have h := intervalCounts_sum dates (listMin dates) (windowCount dates)
    rw [intervalCounts, h]
    refine List.countP_congr ?_
    intro a ha
    have hmin := listMin_le_mem dates a ha
    simp only [Bool.and_eq_true, decide_eq_true_eq, lastRangePoint]
    constructor
    · rintro ⟨-, h2⟩
      exact h2
    · intro h2
      exact ⟨hmin, h2⟩
  · unfold lastRangePoint windowCount
    omega

/-- C6 witness: the amended statement instantiated on two events 20 days
apart (one window, covering only the first event). -/
theorem C6_amended_witness :
    ([0, 20] : List Int) ≠ [] ∧
    ((∃ r, calculate_watch_score [0, 20] "NETFLIX_HISTORY" = some r ∧
      r.2 = (intervalCounts [0, 20]).map
        (fun c => get_watch_history_score c "NETFLIX_HISTORY") ∧
      r.1 = (if r.2 = [] then (0 : ℚ) else r.2.sum / (r.2.length : ℚ))) ∧
    (intervalCounts [0, 20]).sum =
      List.countP (fun d => decide (d < lastRangePoint [0, 20])) [0, 20] ∧
    lastRangePoint [0, 20] ≤ listMax [0, 20] ∧
    listMax [0, 20] ∈ ([0, 20] : List Int)) :=
  ⟨by decide, C6_amended [0, 20] (by decide) "NETFLIX_HISTORY"⟩

/-- C7 counterexample: a single malformed record file aborts the whole run —
`json.load` (proof.py line 110) is not wrapped in any handler — so the
well-formed file after it is never processed. -/
theorem C7_counterexample :
    generate [⟨"a.json", .utf8Malformed⟩,
              ⟨"b.json", .utf8Json ⟨"0xw", [twitterTrusted]⟩⟩] =
      .error "json.load failure" := by
  rfl

/-- Any record file that branch 2 must parse but cannot makes `processFile`
raise, whatever the current state. -/
theorem processFile_parse_error (f : PFile)
    (hmal : ∀ d, f.content ≠ .utf8Json d)
    (hjson : strLower (fileExt f.name) = ".json") :
    ∀ st, ∃ e, processFile st f = .error e := by
  intro st
  cases hc : f.content with
  | utf8Json d => exact absurd hc (hmal d)
  | utf8Malformed =>
    by_cases hn : f.name = "decrypted_file.json"
    · exact ⟨"json.JSONDecodeError", by simp [processFile, hn, hc]⟩
    · exact ⟨"json.load failure", by simp [processFile, hn, hc, hjson]⟩
  | nonUtf8 =>
    by_cases hn : f.name = "decrypted_file.json"
    · refine ⟨"json.load failure", ?_⟩
      simp [processFile, hn, hc]
      decide
    · exact ⟨"json.load failure", by simp [processFile, hn, hc, hjson]⟩

/-- An exception in any iteration aborts the whole loop. -/
theorem generateLoop_error_of_mem (f : PFile)
    (herr : ∀ st, ∃ e, processFile st f = .error e) :
    ∀ (files : List PFile), f ∈ files →
      ∀ st0, ∃ e, generateLoop st0 files = .error e := by
  intro files
  induction files with
  | nil => intro hf; exact absurd hf (List.not_mem_nil f)
  | cons g rest ih =>
    intro hf st0
    rcases List.mem_cons.mp hf with rfl | hf2
    · obtain ⟨e, he⟩ := herr st0
      exact ⟨e, by simp [generateLoop, he]⟩
    · cases hg : processFile st0 g with
      | error e => exact ⟨e, by simp [generateLoop, hg]⟩
      | ok st1 =>
        obtain ⟨e, he⟩ := ih hf2 st1
        exact ⟨e, by simp [generateLoop, hg, he]⟩

/-- C7 (amended): a record file with `.json` extension whose content is
malformed or undecodable does not merely get skipped — `json.load` (proof.py
line 110) is unguarded, so its exception propagates and the whole run aborts
(non-zero process exit), whatever other files the directory holds. -/
theorem C7_amended (files : List PFile) (f : PFile) (hf : f ∈ files)
    (hmal : ∀ d, f.content ≠ .utf8Json d)
    (hjson : strLower (fileExt f.name) = ".json") :
    ∃ e, generate files = .error e :=
  generateLoop_error_of_mem f (processFile_parse_error f hmal hjson) files hf initState

/-- C7 witness: the amended statement instantiated on a one-file directory
with a malformed record. -/
theorem C7_amended_witness :
    (⟨"a.json", FileContent.utf8Malformed⟩ : PFile) ∈
      [(⟨"a.json", FileContent.utf8Malformed⟩ : PFile)] ∧
    ∃ e, generate [(⟨"a.json", FileContent.utf8Malformed⟩ : PFile)] = .error e :=
  ⟨List.mem_singleton.mpr rfl,
   C7_amended _ _ (List.mem_singleton.mpr rfl)
     (fun _ h => FileContent.noConfusion h) (by decide)⟩

/-- C8: the ownership check returns `1.0` on HTTP 200 and `0.0` on HTTP 400
and on network failure as claimed, but an HTTP 500 is also silently scored
`0.0` instead of raising: `except RequestException` (proof.py line 228)
precedes `except HTTPError` (line 232) and `HTTPError` is a subclass of
`RequestException`, so the hard-failure branch is unreachable. -/
theorem C8_http_error_silently_scored :
    calculate_ownership_score "token" ⟨"0xw", ["TWITTER_USERINFO"]⟩ (.response 500) =
      .ok 0 ∧
    calculate_ownership_score "token" ⟨"0xw", ["TWITTER_USERINFO"]⟩ (.response 400) =
      .ok 0 ∧
    calculate_ownership_score "token" ⟨"0xw", ["TWITTER_USERINFO"]⟩ (.response 200) =
      .ok 1 ∧
    calculate_ownership_score "token" ⟨"0xw", ["TWITTER_USERINFO"]⟩ .networkError =
      .ok 0 := by
  exact ⟨rfl, rfl, rfl, rfl⟩

/-- C9 counterexample: authenticity is rounded to five decimal places
(proof.py line 209), so for a bundle of three contributions with one trusted
witness it is `0.33333`, which is not the exact ratio `1/3`. -/
theorem C9_counterexample :
    calculate_authenticity_score [twitterTrusted, twitterUntrusted, twitterUntrusted] =
      33333/100000 ∧
    (33333/100000 : ℚ) ≠ 1/3 := by
  exact ⟨auth_one_of_three, by norm_num⟩

/-- C9 (amended): for a nonempty bundle with string-valued witnesses,
authenticity is the trusted fraction rounded to five decimal places (ties to
even), so it equals `round5(trusted/total)` — within `1/200000` of the exact
ratio but not always equal to it (see the counterexample) — and a
contribution is trusted exactly when its `witnesses` string literally ends
(no case folding, no wildcards) with one of the two fixed suffixes.  A bundle
with no contributions scores `0`. -/
theorem C9_amended (cs : List Contribution) (hne : cs ≠ []) :
    calculate_authenticity_score cs =
      round5 ((cs.countP (fun c => isTrusted c.witnesses) : ℚ) / (cs.length : ℚ)) ∧
    |calculate_authenticity_score cs -
      (cs.countP (fun c => isTrusted c.witnesses) : ℚ) / (cs.length : ℚ)| ≤
      1/200000 ∧
    (∀ c ∈ cs, (isTrusted c.witnesses = true ↔
      ((∃ p, c.witnesses.data =
          p ++ "wss://witness.reclaimprotocol.org/ws".data) ∨
       (∃ p, c.witnesses.data = p ++ "reclaimprotocol.org".data)))) ∧
    calculate_authenticity_score [] = 0 := by
  have heq : calculate_authenticity_score cs =
      round5 ((cs.countP (fun c => isTrusted c.witnesses) : ℚ) / (cs.length : ℚ)) := by
    unfold calculate_authenticity_score
    rw [if_neg hne]
  refine ⟨heq, ?_, ?_, rfl⟩
  · rw [heq]
    exact abs_round5_sub _
  · intro c _
    unfold isTrusted valid_domains
    simp only [List.any_cons, List.any_nil, Bool.or_false, Bool.or_eq_true]
    constructor
    · rintro (h | h)
      · obtain ⟨p, hp⟩ := List.isSuffixOf_iff_suffix.mp h
        exact Or.inl ⟨p, hp.symm⟩
      · obtain ⟨p, hp⟩ := List.isSuffixOf_iff_suffix.mp h
        exact Or.inr ⟨p, hp.symm⟩
    · rintro (⟨p, hp⟩ | ⟨p, hp⟩)
      · exact Or.inl (List.isSuffixOf_iff_suffix.mpr ⟨p, hp.symm⟩)
      · exact Or.inr (List.isSuffixOf_iff_suffix.mpr ⟨p, hp.symm⟩)

/-- C9 witness: the amended statement instantiated on a three-contribution
bundle with one trusted witness. -/
theorem C9_amended_witness :
    ([twitterTrusted, twitterUntrusted, twitterUntrusted] : List Contribution) ≠ [] ∧
    (calculate_authenticity_score [twitterTrusted, twitterUntrusted, twitterUntrusted] =
      round5 ((List.countP (fun c => isTrusted c.witnesses)
          [twitterTrusted, twitterUntrusted, twitterUntrusted] : ℚ) /
        (([twitterTrusted, twitterUntrusted, twitterUntrusted] :
          List Contribution).length : ℚ)) ∧
    |calculate_authenticity_score [twitterTrusted, twitterUntrusted, twitterUntrusted] -
      (List.countP (fun c => isTrusted c.witnesses)
          [twitterTrusted, twitterUntrusted, twitterUntrusted] : ℚ) /
        (([twitterTrusted, twitterUntrusted, twitterUntrusted] :
          List Contribution).length : ℚ)| ≤ 1/200000 ∧
    (∀ c ∈ ([twitterTrusted, twitterUntrusted, twitterUntrusted] : List Contribution),
      (isTrusted c.witnesses = true ↔
        ((∃ p, c.witnesses.data =
            p ++ "wss://witness.reclaimprotocol.org/ws".data) ∨
         (∃ p, c.witnesses.data = p ++ "reclaimprotocol.org".data)))) ∧
    calculate_authenticity_score [] = 0) :=
  ⟨by decide, C9_amended [twitterTrusted, twitterUntrusted, twitterUntrusted] (by decide)⟩

/-- C10 (amended): `extract_input` performs no collision handling of any
kind: every member is written under exactly its archived name, and the last
write to a name wins — a member whose target path already exists (whether a
pre-existing file or an earlier member) overwrites it, so no `_1`/`_2`
suffixed path is ever produced. -/
theorem C10_amended (fs : List (String × String)) (ms : List (String × String))
    (n c : String) :
    fsLookup (extractall fs (ms ++ [(n, c)])) n = some c := by
  have hlast : ∀ (g : List (String × String)) (name content : String),
      fsLookup (fsWrite g name content) name = some content := by
    intro g
    induction g with
    | nil => intro name content; simp [fsWrite, fsLookup]
    | cons p rest ih =>
      intro name content
      obtain ⟨pn, pc⟩ := p
      by_cases h : pn = name
      · simp [fsWrite, fsLookup, h]
      · simp only [fsWrite, h, if_false]
        simp only [fsLookup, h, if_false]
        exact ih name content
  unfold extractall
  rw [List.foldl_append]
  simp only [List.foldl_cons, List.foldl_nil]
  exact hlast _ n c

/-- C10 counterexample: extracting an archive member whose name collides with
an existing file overwrites that file — the pre-existing content is lost and
no suffixed path is created (`zip_ref.extractall`, `__main__.py` line 122). -/
theorem C10_counterexample :
    fsLookup (extract_input [[("a.txt", "member content")]]
        [("a.txt", "original content")]) "a.txt" = some "member content" ∧
    "member content" ≠ "original content" := by
  exact ⟨rfl, by decide⟩

end MyProof
